import Mathlib

/-!
Verification development for the viewport camera controller of shapez.io
(`src/js/game/camera.js`, provided as `src/unnamed/part_001`).

The camera state and its operations are embedded shallowly: JavaScript
numbers are modelled by `ℚ` (the claims below concern exact arithmetic,
bounds and control flow, not floating-point rounding), nullable fields by
`Option`, and handlers that can throw a `TypeError` return `Option Camera`
(`none` = the handler throws before returning).  `G_IS_DEV` is `false`
(production build: the `testCulling` and `disableZoomLimits` debug branches
are compiled out, i.e. zoom limits are enabled).  External collaborators
(platform wrapper, game root dimensions, key bindings, system time) are
gathered in a read-only `CameraConfig`.  Signal dispatches
(`downPreHandler`, `movePreHandler`, …) are modelled by a `captured : Bool`
argument telling whether a pre-handler returned `STOP_PROPAGATION`; the
dispatch itself does not mutate the camera.
-/

/-- Modelled from the spec: the 2-component vector class of `core/vector`
(not included under `src/`); standard componentwise semantics. -/
structure Vec where
  x : ℚ
  y : ℚ
deriving DecidableEq, Repr

/-- Modelled from the spec: a computable stand-in for `Math.sqrt` used by
`Vector.length` / `Vector.distance` (`core/vector`, not under `src/`).
It is exact at `0` and at perfect squares, is nonnegative, and is positive
exactly on positive inputs — the only facts about square roots the claims
below depend on. -/
def sqrtQ (q : ℚ) : ℚ :=
  if q ≤ 0 then 0 else (Nat.sqrt (q.num.toNat * q.den) : ℚ) / (q.den : ℚ)

def Vec.add (a b : Vec) : Vec := ⟨a.x + b.x, a.y + b.y⟩

def Vec.sub (a b : Vec) : Vec := ⟨a.x - b.x, a.y - b.y⟩

def Vec.multiplyScalar (a : Vec) (f : ℚ) : Vec := ⟨a.x * f, a.y * f⟩

def Vec.divideScalar (a : Vec) (f : ℚ) : Vec := ⟨a.x / f, a.y / f⟩

def Vec.subScalars (a : Vec) (sx sy : ℚ) : Vec := ⟨a.x - sx, a.y - sy⟩

def Vec.addScalars (a : Vec) (sx sy : ℚ) : Vec := ⟨a.x + sx, a.y + sy⟩

def Vec.lengthSquare (a : Vec) : ℚ := a.x * a.x + a.y * a.y

def Vec.length (a : Vec) : ℚ := sqrtQ a.lengthSquare

def Vec.distance (a b : Vec) : ℚ := sqrtQ ((b.sub a).lengthSquare)

def Vec.centerPoint (a b : Vec) : Vec := (a.add b).divideScalar 2

/-- `a.direction b` points from `a` to `b` (shapez `Vector.direction`). -/
def Vec.direction (a b : Vec) : Vec := ⟨b.x - a.x, b.y - a.y⟩

/-- Modelled from the spec: `mixVector(v1, v2, a)` of `core/vector`
(linear blend of factor `a` toward `v2`, §4.2 "blend factor 0.06/step"). -/
def mixVector (v1 v2 : Vec) (a : ℚ) : Vec :=
  ⟨v1.x * (1 - a) + v2.x * a, v1.y * (1 - a) + v2.y * a⟩

/-- `Math_min` (`core/builtins`): branching minimum, matching `min_def`. -/
def minQ (a b : ℚ) : ℚ := if a ≤ b then a else b

/-- `Math_max` (`core/builtins`): branching maximum, matching `max_def`. -/
def maxQ (a b : ℚ) : ℚ := if a ≤ b then b else a

/-- `Math_abs` (`core/builtins`): branching absolute value. -/
def absQ (q : ℚ) : ℚ := if q < 0 then -q else q

/-- Modelled from the spec: `clamp(v, minimum, maximum)` of `core/utils`
(not under `src/`): `Math.max(minimum, Math.min(v, maximum))`. -/
def clampQ (v lo hi : ℚ) : ℚ := maxQ lo (minQ v hi)

/-- External collaborators read by the camera: the platform wrapper
(`getMinimumZoom`, `getMaximumZoom`, `getTouchPanStrength`), the root's
render-surface dimensions, `root.time.systemNow()`, and the four
directional key bindings' `currentlyDown` state. -/
structure CameraConfig where
  minimumZoom : ℚ
  maximumZoom : ℚ
  touchPanStrength : ℚ
  gameWidth : ℚ
  gameHeight : ℚ
  systemNow : ℚ
  mapMoveUp : Bool
  mapMoveDown : Bool
  mapMoveLeft : Bool
  mapMoveRight : Bool
deriving DecidableEq, Repr

/-- The mutable fields of the `Camera` class (constructor, lines 94-161). -/
structure Camera where
  zoomLevel : ℚ
  center : Vec
  currentlyMoving : Bool
  lastMovingPosition : Option Vec
  cameraUpdateTimeBucket : ℚ
  didMoveSinceTouchStart : Bool
  currentlyPinching : Bool
  lastPinchPositions : Option (Vec × Vec)
  keyboardForce : Vec
  currentShake : Vec
  currentPan : Vec
  desiredPan : Vec
  desiredCenter : Option Vec
  desiredZoom : Option ℚ
  touchPostMoveVelocity : Vec
deriving DecidableEq, Repr

def velocitySmoothing : ℚ := 0.5

def velocityFade : ℚ := 0.98

def velocityStrength : ℚ := 0.4

def velocityMax : ℚ := 20

/-- `1000.0 / (60.0 * updatesPerFrame)` with `updatesPerFrame = 4`
(`update`, lines 792-793). -/
def physicsStepSizeMs : ℚ := 1000 / (60 * 4)

/-- `clampZoomLevel` (lines 768-781).  `G_IS_DEV` is false, so the
`disableZoomLimits` early return is compiled out.  The guard
`if (this.desiredZoom)` is JavaScript truthiness: a desired zoom of `0`
is falsy and is left unclamped. -/
def Camera.clampZoomLevel (cfg : CameraConfig) (s : Camera) : Camera :=
  { s with
    zoomLevel := clampQ s.zoomLevel cfg.minimumZoom cfg.maximumZoom
    desiredZoom :=
      match s.desiredZoom with
      | none => none
      | some d => if d = 0 then some 0 else some (clampQ d cfg.minimumZoom cfg.maximumZoom) }

/-- `internalUpdateShake` (lines 841-843). -/
def Camera.internalUpdateShake (s : Camera) (_now _dt : ℚ) : Camera :=
  { s with currentShake := s.currentShake.multiplyScalar 0.92 }

/-- `internalUpdatePanning` (lines 850-869). -/
def Camera.internalUpdatePanning (cfg : CameraConfig) (s : Camera) (_now dt : ℚ) : Camera :=
  let baseStrength := velocityStrength * cfg.touchPanStrength
  let v1 := s.touchPostMoveVelocity.multiplyScalar velocityFade
  if s.currentlyMoving = false ∧ s.currentlyPinching = false then
    let len := v1.length
    let v2 := if velocityMax ≤ len then
        (⟨v1.x * velocityMax / len, v1.y * velocityMax / len⟩ : Vec)
      else v1
    let c1 := s.center.add (v2.multiplyScalar baseStrength)
    let cp := mixVector s.currentPan s.desiredPan 0.06
    let c2 := c1.add (cp.multiplyScalar ((0.5 * dt) / s.zoomLevel))
    { s with touchPostMoveVelocity := v2, center := c2, currentPan := cp }
  else
    { s with touchPostMoveVelocity := v1 }

/-- `internalUpdateZooming` (lines 876-894). -/
def Camera.internalUpdateZooming (s : Camera) (_now _dt : ℚ) : Camera :=
  if s.currentlyPinching then s
  else
    match s.desiredZoom with
    | none => s
    | some dz =>
      let diff := s.zoomLevel - dz
      if 0.0001 < absQ diff then
        let fade : ℚ := if 0 < diff then 0.9 else 0.94
        { s with zoomLevel := s.zoomLevel * fade + dz * (1 - fade) }
      else
        { s with desiredZoom := none }

/-- `internalUpdateCentering` (lines 901-914). -/
def Camera.internalUpdateCentering (s : Camera) (_now dt : ℚ) : Camera :=
  if s.currentlyMoving then s
  else
    match s.desiredCenter with
    | none => s
    | some dc =>
      let diff := s.center.direction dc
      let len := diff.length
      let tolerance := 1 / s.zoomLevel
      if tolerance < len then
        let movement := diff.multiplyScalar (minQ 1 (dt * 0.008))
        { s with center := ⟨s.center.x + movement.x, s.center.y + movement.y⟩ }
      else
        { s with desiredCenter := none }

/-- `internalUpdateKeyboardForce` (lines 921-950). -/
def Camera.internalUpdateKeyboardForce (cfg : CameraConfig) (s : Camera) (_now dt : ℚ) :
    Camera :=
  if s.currentlyMoving = false ∧ s.desiredCenter = none then
    let limitingDimension := minQ cfg.gameWidth cfg.gameHeight
    let moveAmount := limitingDimension / 2048 * dt / s.zoomLevel
    let forceX : ℚ := (if cfg.mapMoveLeft then -1 else 0) + (if cfg.mapMoveRight then 1 else 0)
    let forceY : ℚ := (if cfg.mapMoveUp then -1 else 0) + (if cfg.mapMoveDown then 1 else 0)
    { s with center := ⟨s.center.x + moveAmount * forceX, s.center.y + moveAmount * forceY⟩ }
  else s

/-- One fixed integration step: the body of the `while` loop in `update`
(lines 801-805), in source order: panning, zooming, centering, shake,
keyboard force. -/
def Camera.stepChannels (cfg : CameraConfig) (s : Camera) (now dt : ℚ) : Camera :=
  Camera.internalUpdateKeyboardForce cfg
    (Camera.internalUpdateShake
      (Camera.internalUpdateCentering
        (Camera.internalUpdateZooming
          (Camera.internalUpdatePanning cfg s now dt) now dt) now dt) now dt) now dt

/-- The `while (this.cameraUpdateTimeBucket > physicsStepSizeMs)` loop of
`update` (lines 797-806).  The fuel argument only bounds the number of
iterations; the loop guard is re-checked on every unfolding, so with
sufficient fuel (as supplied by `Camera.update`) this is exactly the
source's while loop. -/
def Camera.updateLoop (cfg : CameraConfig) : ℕ → ℚ → Camera → Camera
  | 0, _, s => s
  | n + 1, now, s =>
    if physicsStepSizeMs < s.cameraUpdateTimeBucket then
      let now2 := now + physicsStepSizeMs
      let s2 := Camera.stepChannels cfg
        { s with cameraUpdateTimeBucket := s.cameraUpdateTimeBucket - physicsStepSizeMs }
        now2 physicsStepSizeMs
      Camera.updateLoop cfg n now2 s2
    else s

/-- `update(dt)` (lines 787-808): clamp `dt` to 33ms, accumulate the time
bucket, drain it in fixed steps, then clamp the zoom level.  The fuel
`bucket.num.toNat` exceeds the number of `while` iterations (each
iteration removes `physicsStepSizeMs > 1` from the bucket, see
`Camera.updateLoop_bucket_le` below), and `Camera.updateLoop` re-checks
the loop guard on every unfolding, so this is exactly the source loop. -/
def Camera.update (cfg : CameraConfig) (s : Camera) (dt : ℚ) : Camera :=
  let dt2 := minQ dt 33
  let bucket := s.cameraUpdateTimeBucket + dt2
  let fuel := bucket.num.toNat
  let now0 := cfg.systemNow - 3 * physicsStepSizeMs
  Camera.clampZoomLevel cfg
    (Camera.updateLoop cfg fuel now0 { s with cameraUpdateTimeBucket := bucket })

/-- `combinedSingleTouchStartHandler` (lines 699-710).  `captured` is true
when `downPreHandler.dispatch(...)` returned `STOP_PROPAGATION`. -/
def Camera.combinedSingleTouchStartHandler (s : Camera) (captured : Bool) (x y : ℚ) :
    Camera :=
  if captured then s
  else
    { s with
      touchPostMoveVelocity := ⟨0, 0⟩
      currentlyMoving := true
      lastMovingPosition := some ⟨x, y⟩
      didMoveSinceTouchStart := false }

/-- `combinedSingleTouchMoveHandler` (lines 717-748).  `captured` is true
when `movePreHandler.dispatch(pos)` returned `STOP_PROPAGATION`.  A `none`
result models the `TypeError` thrown by `this.lastMovingPosition.sub(pos)`
when `lastMovingPosition` is null while `currentlyMoving` is set (never the
case in reachable states).  The `G_IS_DEV && testCulling` branch is
compiled out.  The final `if (this.desiredCenter)` null-check makes
`desiredCenter` null on every completed pass. -/
def Camera.combinedSingleTouchMoveHandler (s : Camera) (captured : Bool) (x y : ℚ) :
    Option Camera :=
  let pos : Vec := ⟨x, y⟩
  if captured then some s
  else if s.currentlyMoving = false then some s
  else
    match s.lastMovingPosition with
    | none => none
    | some lmp =>
      let delta := (lmp.sub pos).divideScalar s.zoomLevel
      let didMove := s.didMoveSinceTouchStart || decide (0 < delta.length)
      let center2 := s.center.add delta
      let v2 := (s.touchPostMoveVelocity.multiplyScalar velocitySmoothing).add
        (delta.multiplyScalar (1 - velocitySmoothing))
      some { s with
        didMoveSinceTouchStart := didMove
        center := center2
        touchPostMoveVelocity := v2
        lastMovingPosition := some pos
        desiredCenter := none }

/-- `combinedSingleTouchStopHandler` (lines 753-763).  The trailing
`upPostHandler.dispatch` notifies external listeners and does not mutate
the camera. -/
def Camera.combinedSingleTouchStopHandler (s : Camera) (_x _y : ℚ) : Camera :=
  if s.currentlyMoving || s.currentlyPinching then
    { s with
      currentlyMoving := false
      currentlyPinching := false
      lastMovingPosition := none
      lastPinchPositions := none
      didMoveSinceTouchStart := false }
  else s

/-- `onTouchEnd` (lines 676-692).  The handler receives the event's
`changedTouches` list.  An empty list is logged
(`logger.warn("Touch end without changed touches")`, no state effect), but
the code then unconditionally reads `event.changedTouches[0]` — which is
`undefined` — and accesses `.clientX` on it, throwing a `TypeError`;
this aborted execution is modelled by `none`. -/
def Camera.onTouchEnd (s : Camera) (changedTouches : List Vec) : Option Camera :=
  match changedTouches with
  | [] => none
  | t :: _ => some (s.combinedSingleTouchStopHandler t.x t.y)

/-- `onTouchMove` (lines 598-670).  `touches` is the event's `touches`
list; `moveCaptured` tells whether `movePreHandler` claimed the single
touch sample.  All paths end in `clampZoomLevel` ("Clamp everything
afterwards").  In the pinch branch the ratio denominator is clamped by
`Math_max(0.001, lastDistance)`; the `correcture` divide by the new zoom
level reuses the `ℚ` convention `q / 0 = 0` — it only feeds `center`,
which no claim below observes on that path.  The JavaScript truthiness
test `if (this.desiredZoom)` leaves a desired zoom of `0` in place. -/
def Camera.onTouchMove (cfg : CameraConfig) (s : Camera) (moveCaptured : Bool)
    (touches : List Vec) : Option Camera :=
  match touches with
  | [t] =>
    (s.combinedSingleTouchMoveHandler moveCaptured t.x t.y).map (Camera.clampZoomLevel cfg)
  | [t1, t2] =>
    if s.currentlyPinching then
      match s.lastPinchPositions with
      | none => none
      | some (p1, p2) =>
        let lastDistance := p1.distance p2
        let thisDistance := t1.distance t2
        let difference := thisDistance / maxQ 0.001 lastDistance
        let oldCenter := p1.centerPoint p2
        let c0 := t1.centerPoint t2
        let movement := oldCenter.sub c0
        let centerA : Vec :=
          ⟨s.center.x + movement.x / s.zoomLevel, s.center.y + movement.y / s.zoomLevel⟩
        let cAdj := c0.sub ⟨cfg.gameWidth / 2, cfg.gameHeight / 2⟩
        let zoom2 := s.zoomLevel * difference
        let correcture := (cAdj.multiplyScalar (difference - 1)).divideScalar zoom2
        let centerB := centerA.add correcture
        let dz2 : Option ℚ :=
          match s.desiredZoom with
          | none => none
          | some d => if d = 0 then some 0 else none
        some (Camera.clampZoomLevel cfg
          { s with
            center := centerB
            zoomLevel := zoom2
            lastPinchPositions := some (t1, t2)
            desiredZoom := dz2 })
    else some (Camera.clampZoomLevel cfg s)
  | _ => some (Camera.clampZoomLevel cfg s)

/-- `screenToWorld` (lines 414-417). -/
def Camera.screenToWorld (cfg : CameraConfig) (s : Camera) (screen : Vec) : Vec :=
  ((screen.subScalars (cfg.gameWidth / 2) (cfg.gameHeight / 2)).divideScalar
    s.zoomLevel).add s.center

/-- `worldToScreen` (lines 424-427). -/
def Camera.worldToScreen (cfg : CameraConfig) (s : Camera) (world : Vec) : Vec :=
  ((world.sub s.center).multiplyScalar s.zoomLevel).addScalars
    (cfg.gameWidth / 2) (cfg.gameHeight / 2)

/-- `setDesiredCenter` (lines 198-201). -/
def Camera.setDesiredCenter (s : Camera) (c : Vec) : Camera :=
  { s with desiredCenter := some c, currentlyMoving := false }

/-- `isCurrentlyInteracting` (lines 256-268). -/
def Camera.isCurrentlyInteracting (s : Camera) : Bool :=
  if s.currentlyPinching then true
  else if s.currentlyMoving then s.didMoveSinceTouchStart
  else if 1 < s.touchPostMoveVelocity.lengthSquare then true
  else false

/-- `viewportWillChange` (lines 274-276). -/
def Camera.viewportWillChange (s : Camera) : Bool :=
  s.desiredCenter.isSome || s.desiredZoom.isSome || s.isCurrentlyInteracting

/-- `cancelAllInteractions` (lines 281-287). -/
def Camera.cancelAllInteractions (s : Camera) : Camera :=
  { s with
    touchPostMoveVelocity := ⟨0, 0⟩
    desiredCenter := none
    currentlyMoving := false
    currentlyPinching := false
    desiredZoom := none }

/-- Modelled from the spec: the `request-zoom(toFactor)` entry point of §6
("programmatic motion requests"), absent from the camera source itself —
it sets the desired-zoom target; the blending (`internalUpdateZooming`)
and the clamping (`clampZoomLevel`) that decide the claim are embedded
from the source above. -/
def Camera.requestZoom (s : Camera) (z : ℚ) : Camera :=
  { s with desiredZoom := some z }

/-- The "inertial pan" channel of spec §4.2: the first half of
`internalUpdatePanning` (velocity fade, magnitude clamp, application to
`center`), split out to state the spec's per-channel composition claim. -/
def Camera.inertialPanChannel (cfg : CameraConfig) (s : Camera) (_now _dt : ℚ) : Camera :=
  let baseStrength := velocityStrength * cfg.touchPanStrength
  let v1 := s.touchPostMoveVelocity.multiplyScalar velocityFade
  if s.currentlyMoving = false ∧ s.currentlyPinching = false then
    let len := v1.length
    let v2 := if velocityMax ≤ len then
        (⟨v1.x * velocityMax / len, v1.y * velocityMax / len⟩ : Vec)
      else v1
    { s with touchPostMoveVelocity := v2, center := s.center.add (v2.multiplyScalar baseStrength) }
  else
    { s with touchPostMoveVelocity := v1 }

/-- The "programmatic pan blend" channel of spec §4.2: the second half of
`internalUpdatePanning` (blend `currentPan` toward `desiredPan` by 0.06
and apply it to `center` scaled by `dt / zoomLevel`). -/
def Camera.panBlendChannel (s : Camera) (_now dt : ℚ) : Camera :=
  if s.currentlyMoving = false ∧ s.currentlyPinching = false then
    let cp := mixVector s.currentPan s.desiredPan 0.06
    { s with currentPan := cp, center := s.center.add (cp.multiplyScalar ((0.5 * dt) / s.zoomLevel)) }
  else s

/-! ### Basic lemmas about the arithmetic helpers -/

theorem minQ_eq_min (a b : ℚ) : minQ a b = min a b := (min_def a b).symm

theorem maxQ_eq_max (a b : ℚ) : maxQ a b = max a b := (max_def a b).symm

theorem absQ_eq_abs (q : ℚ) : absQ q = |q| := by
  unfold absQ
  split
  · rw [abs_of_neg]; assumption
  · rw [abs_of_nonneg]; exact le_of_not_lt (by assumption)

theorem clampQ_eq (v lo hi : ℚ) : clampQ v lo hi = max lo (min v hi) := by
  rw [clampQ, minQ_eq_min, maxQ_eq_max]

theorem le_clampQ (v lo hi : ℚ) : lo ≤ clampQ v lo hi := by
  rw [clampQ_eq]; exact le_max_left _ _

theorem clampQ_le (v lo hi : ℚ) (h : lo ≤ hi) : clampQ v lo hi ≤ hi := by
  rw [clampQ_eq]; exact max_le h (min_le_right _ _)

theorem clampQ_of_mem (v lo hi : ℚ) (h1 : lo ≤ v) (h2 : v ≤ hi) : clampQ v lo hi = v := by
  rw [clampQ_eq, min_eq_left h2, max_eq_right h1]

theorem clampQ_idem (v lo hi : ℚ) (h : lo ≤ hi) :
    clampQ (clampQ v lo hi) lo hi = clampQ v lo hi :=
  clampQ_of_mem _ _ _ (le_clampQ v lo hi) (clampQ_le v lo hi h)

theorem clampQ_lipschitz (a b lo hi : ℚ) : |clampQ a lo hi - clampQ b lo hi| ≤ |a - b| := by
  rw [clampQ_eq, clampQ_eq]
  calc |max lo (min a hi) - max lo (min b hi)|
      = |max (min a hi) lo - max (min b hi) lo| := by rw [max_comm lo, max_comm lo]
    _ ≤ |min a hi - min b hi| := abs_max_sub_max_le_abs _ _ _
    _ ≤ |a - b| := by
        rcases le_total a hi with h1 | h1 <;> rcases le_total b hi with h2 | h2 <;>
          simp [min_eq_left, min_eq_right, h1, h2] <;> rw [abs_le] <;>
          constructor <;> cases abs_cases (a - b) <;> linarith [abs_nonneg (a - b)]

theorem sqrtQ_zero : sqrtQ 0 = 0 := by simp [sqrtQ]

theorem sqrtQ_nonneg (q : ℚ) : 0 ≤ sqrtQ q := by
  unfold sqrtQ
  split
  · exact le_refl 0
  · exact div_nonneg (Nat.cast_nonneg _) (Nat.cast_nonneg _)

theorem sqrtQ_pos_iff (q : ℚ) : 0 < sqrtQ q ↔ 0 < q := by
  unfold sqrtQ
  split
  · simp only [lt_self_iff_false, false_iff, not_lt]
    assumption
  · have hq : 0 < q := lt_of_not_le (by assumption)
    have hnum : 0 < q.num := Rat.num_pos.mpr hq
    have hden : 0 < q.den := q.den_pos
    have h1 : 1 ≤ q.num.toNat * q.den :=
      Nat.one_le_iff_ne_zero.mpr (Nat.mul_ne_zero (by omega) (by omega))
    have hs : 0 < Nat.sqrt (q.num.toNat * q.den) := Nat.sqrt_pos.mpr h1
    exact iff_of_true
      (div_pos (by exact_mod_cast hs) (by exact_mod_cast hden)) hq

/-! ### Concrete instances used by witnesses and counterexamples -/

/-- A concrete platform/root configuration: an 800×600 surface with zoom
limits `[1/2, 4]`, no keys held. -/
def sampleConfig : CameraConfig :=
  { minimumZoom := 1/2
    maximumZoom := 4
    touchPanStrength := 1
    gameWidth := 800
    gameHeight := 600
    systemNow := 0
    mapMoveUp := false
    mapMoveDown := false
    mapMoveLeft := false
    mapMoveRight := false }

/-- The camera state right after construction for this surface:
`findInitialZoom` gives `min(800/480, 600/480) = 5/4`, in range, and all
gesture/animation state is reset. -/
def sampleCamera : Camera :=
  { zoomLevel := 5/4
    center := ⟨0, 0⟩
    currentlyMoving := false
    lastMovingPosition := none
    cameraUpdateTimeBucket := 0
    didMoveSinceTouchStart := false
    currentlyPinching := false
    lastPinchPositions := none
    keyboardForce := ⟨0, 0⟩
    currentShake := ⟨0, 0⟩
    currentPan := ⟨0, 0⟩
    desiredPan := ⟨0, 0⟩
    desiredCenter := none
    desiredZoom := none
    touchPostMoveVelocity := ⟨0, 0⟩ }

/-! ### C2 — touch-end with zero changed touches -/

/-- C2: the claim says `onTouchEnd` with an empty `changedTouches` list
completes normally as a logged no-op.  The code logs the warning but then
unconditionally reads `changedTouches[0].clientX`, i.e. `.clientX` of
`undefined`, and throws a `TypeError` — evaluating the embedded handler on
the empty list yields `none` (aborted), not `some` of the unchanged
state. -/
theorem onTouchEnd_empty_changedTouches_throws :
    Camera.onTouchEnd sampleCamera [] = none := rfl

/-! ### C6 — screen/world round trip -/

/-- C6: for every point `p` and camera state with nonzero `zoomLevel`,
`worldToScreen(screenToWorld(p)) = p` in exact arithmetic, with
`zoomLevel` and `center` unchanged between the calls. -/
theorem worldToScreen_screenToWorld_roundtrip (cfg : CameraConfig) (s : Camera) (p : Vec)
    (hz : s.zoomLevel ≠ 0) :
    Camera.worldToScreen cfg s (Camera.screenToWorld cfg s p) = p := by
  cases p with
  | mk px py =>
    simp only [Camera.worldToScreen, Camera.screenToWorld, Vec.subScalars, Vec.addScalars,
      Vec.divideScalar, Vec.multiplyScalar, Vec.add, Vec.sub]
    congr 1 <;> field_simp <;> ring

/-- Witness for C6 at the sample state and `p = (3, 7)`. -/
theorem worldToScreen_screenToWorld_roundtrip_witness :
    sampleCamera.zoomLevel ≠ 0 ∧
      Camera.worldToScreen sampleConfig sampleCamera
        (Camera.screenToWorld sampleConfig sampleCamera ⟨3, 7⟩) = ⟨3, 7⟩ :=
  ⟨by norm_num [sampleCamera],
    worldToScreen_screenToWorld_roundtrip sampleConfig sampleCamera ⟨3, 7⟩
      (by norm_num [sampleCamera])⟩

/-! ### C9 — cancelAllInteractions stills the viewport -/

/-- C9: immediately after `cancelAllInteractions()` the desired-center and
desired-zoom animations are cleared, both gesture flags are down, the
inertial velocity is the zero vector, and consequently
`isCurrentlyInteracting()` and `viewportWillChange()` are both false. -/
theorem cancelAllInteractions_stills_viewport (s : Camera) :
    (s.cancelAllInteractions).desiredCenter = none ∧
      (s.cancelAllInteractions).desiredZoom = none ∧
      (s.cancelAllInteractions).currentlyMoving = false ∧
      (s.cancelAllInteractions).currentlyPinching = false ∧
      (s.cancelAllInteractions).touchPostMoveVelocity = ⟨0, 0⟩ ∧
      (s.cancelAllInteractions).isCurrentlyInteracting = false ∧
      (s.cancelAllInteractions).viewportWillChange = false := by
  refine ⟨rfl, rfl, rfl, rfl, rfl, ?_, ?_⟩ <;>
    norm_num [Camera.cancelAllInteractions, Camera.isCurrentlyInteracting,
      Camera.viewportWillChange, Vec.lengthSquare]

/-! ### C10 — drag-move sample with no active drag is a no-op -/

/-- C10: when `currentlyMoving` is false, a drag-move sample leaves the
whole camera record unchanged (whether or not the pre-handler claims it):
the handler returns right after the early-out check. -/
theorem moveHandler_noop_when_not_moving (s : Camera) (captured : Bool) (x y : ℚ)
    (h : s.currentlyMoving = false) :
    s.combinedSingleTouchMoveHandler captured x y = some s := by
  cases captured <;> simp [Camera.combinedSingleTouchMoveHandler, h]

/-- Witness for C10 at the sample state. -/
theorem moveHandler_noop_when_not_moving_witness :
    sampleCamera.currentlyMoving = false ∧
      sampleCamera.combinedSingleTouchMoveHandler false 10 20 = some sampleCamera :=
  ⟨rfl, moveHandler_noop_when_not_moving sampleCamera false 10 20 rfl⟩

/-! ### C5 — which gesture call cancels the centering animation -/

/-- C5 counterexample: starting a drag (the drag-start gesture call,
unclaimed by the pre-handler) does NOT set `desiredCenter` to null — at a
state with an active centering animation toward `(3, 4)`, the animation is
still active after `combinedSingleTouchStartHandler` returns. -/
theorem dragStart_does_not_cancel_centering :
    ¬ ((Camera.combinedSingleTouchStartHandler
          { sampleCamera with desiredCenter := some ⟨3, 4⟩ } false 10 20).desiredCenter
        = none) := by
  simp [Camera.combinedSingleTouchStartHandler]

/-- A concrete mid-drag state with an active centering animation, used by
the C5 witness. -/
def midDragCamera : Camera :=
  { sampleCamera with
    currentlyMoving := true
    lastMovingPosition := some ⟨1, 2⟩
    desiredCenter := some ⟨3, 4⟩ }

/-- C5 amended: the drag-start call leaves `desiredCenter` unchanged; it is
the first drag-move sample processed while `currentlyMoving` (and not
claimed by the pre-handler) that sets `desiredCenter` to null within that
same call (the handler completes and the returned state has
`desiredCenter = none`). -/
theorem dragMove_cancels_centering (s : Camera) (x y : ℚ) (lmp : Vec)
    (hm : s.currentlyMoving = true) (hl : s.lastMovingPosition = some lmp) :
    (∀ (captured : Bool) (a b : ℚ),
        (s.combinedSingleTouchStartHandler captured a b).desiredCenter = s.desiredCenter) ∧
      Option.map Camera.desiredCenter (s.combinedSingleTouchMoveHandler false x y)
        = some none := by
  constructor
  · intro captured a b
    cases captured <;> simp [Camera.combinedSingleTouchStartHandler]
  · simp [Camera.combinedSingleTouchMoveHandler, hm, hl]

/-- Witness for the amended C5 at the concrete mid-drag state. -/
theorem dragMove_cancels_centering_witness :
    midDragCamera.currentlyMoving = true ∧
      midDragCamera.lastMovingPosition = some ⟨1, 2⟩ ∧
      ((∀ (captured : Bool) (a b : ℚ),
          (midDragCamera.combinedSingleTouchStartHandler captured a b).desiredCenter
            = midDragCamera.desiredCenter) ∧
        Option.map Camera.desiredCenter
          (midDragCamera.combinedSingleTouchMoveHandler false 10 20) = some none) :=
  ⟨rfl, rfl, dragMove_cancels_centering midDragCamera 10 20 ⟨1, 2⟩ rfl rfl⟩

/-! ### Field-preservation lemmas for the integration channels -/

theorem internalUpdateShake_preserves (s : Camera) (now dt : ℚ) :
    (s.internalUpdateShake now dt).cameraUpdateTimeBucket = s.cameraUpdateTimeBucket ∧
      (s.internalUpdateShake now dt).zoomLevel = s.zoomLevel ∧
      (s.internalUpdateShake now dt).desiredZoom = s.desiredZoom :=
  ⟨rfl, rfl, rfl⟩

theorem internalUpdatePanning_preserves (cfg : CameraConfig) (s : Camera) (now dt : ℚ) :
    (Camera.internalUpdatePanning cfg s now dt).cameraUpdateTimeBucket
        = s.cameraUpdateTimeBucket ∧
      (Camera.internalUpdatePanning cfg s now dt).zoomLevel = s.zoomLevel ∧
      (Camera.internalUpdatePanning cfg s now dt).desiredZoom = s.desiredZoom := by
  unfold Camera.internalUpdatePanning
  split <;> exact ⟨rfl, rfl, rfl⟩

theorem internalUpdateCentering_preserves (s : Camera) (now dt : ℚ) :
    (s.internalUpdateCentering now dt).cameraUpdateTimeBucket = s.cameraUpdateTimeBucket ∧
      (s.internalUpdateCentering now dt).zoomLevel = s.zoomLevel ∧
      (s.internalUpdateCentering now dt).desiredZoom = s.desiredZoom := by
  simp only [Camera.internalUpdateCentering]
  repeat' split
  all_goals exact ⟨rfl, rfl, rfl⟩

theorem internalUpdateKeyboardForce_preserves (cfg : CameraConfig) (s : Camera) (now dt : ℚ) :
    (Camera.internalUpdateKeyboardForce cfg s now dt).cameraUpdateTimeBucket
        = s.cameraUpdateTimeBucket ∧
      (Camera.internalUpdateKeyboardForce cfg s now dt).zoomLevel = s.zoomLevel ∧
      (Camera.internalUpdateKeyboardForce cfg s now dt).desiredZoom = s.desiredZoom := by
  unfold Camera.internalUpdateKeyboardForce
  split <;> exact ⟨rfl, rfl, rfl⟩

theorem internalUpdateZooming_bucket (s : Camera) (now dt : ℚ) :
    (s.internalUpdateZooming now dt).cameraUpdateTimeBucket = s.cameraUpdateTimeBucket := by
  simp only [Camera.internalUpdateZooming]
  repeat' split
  all_goals rfl

theorem stepChannels_bucket (cfg : CameraConfig) (s : Camera) (now dt : ℚ) :
    (Camera.stepChannels cfg s now dt).cameraUpdateTimeBucket = s.cameraUpdateTimeBucket := by
  unfold Camera.stepChannels
  rw [(internalUpdateKeyboardForce_preserves cfg _ now dt).1,
    (internalUpdateShake_preserves _ now dt).1,
    (internalUpdateCentering_preserves _ now dt).1,
    internalUpdateZooming_bucket,
    (internalUpdatePanning_preserves cfg _ now dt).1]

theorem clampZoomLevel_bucket (cfg : CameraConfig) (s : Camera) :
    (Camera.clampZoomLevel cfg s).cameraUpdateTimeBucket = s.cameraUpdateTimeBucket := rfl

/-! ### The integrator drains the bucket -/

theorem physicsStepSizeMs_pos : (0 : ℚ) < physicsStepSizeMs := by
  norm_num [physicsStepSizeMs]

theorem one_le_physicsStepSizeMs : (1 : ℚ) ≤ physicsStepSizeMs := by
  norm_num [physicsStepSizeMs]

/-- The while loop exits with `bucket ≤ physicsStepSizeMs` whenever the
fuel covers the initial bucket. -/
theorem updateLoop_bucket_le (cfg : CameraConfig) : ∀ (n : ℕ) (now : ℚ) (s : Camera),
    s.cameraUpdateTimeBucket ≤ physicsStepSizeMs + n * physicsStepSizeMs →
    (Camera.updateLoop cfg n now s).cameraUpdateTimeBucket ≤ physicsStepSizeMs := by
  intro n
  induction n with
  | zero =>
    intro now s h
    norm_num at h
    simpa [Camera.updateLoop] using h
  | succ n ih =>
    intro now s h
    unfold Camera.updateLoop
    split
    · apply ih
      rw [stepChannels_bucket]
      show s.cameraUpdateTimeBucket - physicsStepSizeMs ≤ _
      push_cast at h ⊢
      linarith
    · exact le_of_not_lt (by assumption)

/-- The fuel `Camera.update` supplies to the loop is sufficient. -/
theorem update_bucket_le (cfg : CameraConfig) (s : Camera) (dt : ℚ) :
    (Camera.update cfg s dt).cameraUpdateTimeBucket ≤ physicsStepSizeMs := by
  unfold Camera.update
  rw [clampZoomLevel_bucket]
  apply updateLoop_bucket_le
  show s.cameraUpdateTimeBucket + minQ dt 33
      ≤ physicsStepSizeMs + ((s.cameraUpdateTimeBucket + minQ dt 33).num.toNat : ℕ) * physicsStepSizeMs
  set b : ℚ := s.cameraUpdateTimeBucket + minQ dt 33 with hb
  rcases le_or_lt b physicsStepSizeMs with h | h
  · have h0 : (0 : ℚ) ≤ (b.num.toNat : ℚ) * physicsStepSizeMs :=
      mul_nonneg (by positivity) physicsStepSizeMs_pos.le
    linarith
  · have hbpos : 0 < b := lt_trans physicsStepSizeMs_pos h
    have hden : (1 : ℚ) ≤ (b.den : ℚ) := by exact_mod_cast b.den_pos
    have h1 : b ≤ (b.num : ℚ) := by
      conv_lhs => rw [← Rat.num_div_den b]
      exact div_le_self (by exact_mod_cast (Rat.num_pos.mpr hbpos).le) hden
    have h2 : ((b.num.toNat : ℕ) : ℚ) = (b.num : ℚ) := by
      exact_mod_cast congrArg Int.cast (Int.toNat_of_nonneg (Rat.num_pos.mpr hbpos).le)
    have h3 : (b.num : ℚ) ≤ (b.num : ℚ) * physicsStepSizeMs :=
      le_mul_of_one_le_right (by exact_mod_cast (Rat.num_pos.mpr hbpos).le)
        one_le_physicsStepSizeMs
    rw [h2]
    linarith [physicsStepSizeMs_pos]

/-! ### C3 — the bucket bound after update is `≤`, not `<` -/

/-- C3 counterexample: from a camera state with an empty bucket, one
`update(dt)` call with `dt = 2 · physicsStepSizeMs = 25/3 ms` (well within
the 33ms clamp and nonnegative) leaves `cameraUpdateTimeBucket` exactly
EQUAL to the physics step size `25/6`, refuting the claimed strict bound
(the while loop's exit condition is `bucket ≤ step`, not `bucket < step`;
the same equality occurs in IEEE doubles since `2s - s = s` is exact). -/
theorem update_bucket_not_strictly_below_step :
    (Camera.update sampleConfig sampleCamera (25/3)).cameraUpdateTimeBucket
        = physicsStepSizeMs ∧
      ¬ ((Camera.update sampleConfig sampleCamera (25/3)).cameraUpdateTimeBucket
          < physicsStepSizeMs) := by
  have h : (Camera.update sampleConfig sampleCamera (25/3)).cameraUpdateTimeBucket = 25/6 := by
    norm_num [Camera.update, Camera.updateLoop, Camera.stepChannels,
      Camera.internalUpdatePanning, Camera.internalUpdateZooming,
      Camera.internalUpdateCentering, Camera.internalUpdateShake,
      Camera.internalUpdateKeyboardForce, Camera.clampZoomLevel,
      sampleCamera, sampleConfig, physicsStepSizeMs, minQ, maxQ, absQ, clampQ, sqrtQ,
      Vec.add, Vec.multiplyScalar, Vec.length, Vec.lengthSquare, mixVector,
      velocityFade, velocityStrength, velocityMax, Rat.num, Rat.den]
  rw [h]
  norm_num [physicsStepSizeMs]

/-- C3 amended: for every camera state and every `dt` (the claim's
non-negativity and prior-bucket hypotheses included), after `update(dt)`
returns, `cameraUpdateTimeBucket` is at most (`≤`, with equality
attainable) the physics step size `1000/(60·4)` ms. -/
theorem update_bucket_le_step (cfg : CameraConfig) (s : Camera) (dt : ℚ)
    (_hdt : 0 ≤ dt) (_hprev : s.cameraUpdateTimeBucket < physicsStepSizeMs) :
    (Camera.update cfg s dt).cameraUpdateTimeBucket ≤ physicsStepSizeMs :=
  update_bucket_le cfg s dt

/-- Witness for the amended C3 at the sample state with `dt = 10`. -/
theorem update_bucket_le_step_witness :
    (0 : ℚ) ≤ 10 ∧ sampleCamera.cameraUpdateTimeBucket < physicsStepSizeMs ∧
      (Camera.update sampleConfig sampleCamera 10).cameraUpdateTimeBucket
        ≤ physicsStepSizeMs :=
  ⟨by norm_num, by norm_num [sampleCamera, physicsStepSizeMs],
    update_bucket_le_step sampleConfig sampleCamera 10 (by norm_num)
      (by norm_num [sampleCamera, physicsStepSizeMs])⟩

/-! ### C1 — zoom level stays within the platform limits -/

theorem clampZoomLevel_zoom_mem (cfg : CameraConfig) (s : Camera)
    (h : cfg.minimumZoom ≤ cfg.maximumZoom) :
    cfg.minimumZoom ≤ (Camera.clampZoomLevel cfg s).zoomLevel ∧
      (Camera.clampZoomLevel cfg s).zoomLevel ≤ cfg.maximumZoom :=
  ⟨le_clampQ _ _ _, clampQ_le _ _ _ h⟩

/-- C1: with zoom limits enabled and a well-formed platform range
(`minZoom ≤ maxZoom`), `zoomLevel` lies within
`[getMinimumZoom(), getMaximumZoom()]` after `update(dt)` returns — for
every starting state and every `dt`, hence at every observation point of
every sequence of `update` calls — and likewise after the other
zoom-mutating event handler (`onTouchMove`) completes normally, since both
end with an unconditional `clampZoomLevel()` pass. -/
theorem update_zoomLevel_within_limits (cfg : CameraConfig) (s : Camera) (dt : ℚ)
    (touches : List Vec) (moveCaptured : Bool) (s' : Camera)
    (h : cfg.minimumZoom ≤ cfg.maximumZoom) :
    (cfg.minimumZoom ≤ (Camera.update cfg s dt).zoomLevel ∧
        (Camera.update cfg s dt).zoomLevel ≤ cfg.maximumZoom) ∧
      (Camera.onTouchMove cfg s moveCaptured touches = some s' →
        cfg.minimumZoom ≤ s'.zoomLevel ∧ s'.zoomLevel ≤ cfg.maximumZoom) := by
  constructor
  · unfold Camera.update
    exact clampZoomLevel_zoom_mem cfg _ h
  · intro hmv
    match touches, hmv with
    | [t], hmv =>
      simp only [Camera.onTouchMove] at hmv
      rcases hopt : s.combinedSingleTouchMoveHandler moveCaptured t.x t.y with _ | t2
      · rw [hopt] at hmv; simp at hmv
      · rw [hopt] at hmv
        simp only [Option.map_some'] at hmv
        obtain rfl : Camera.clampZoomLevel cfg t2 = s' := Option.some.injEq .. ▸ hmv
        exact clampZoomLevel_zoom_mem cfg _ h
    | [t1, t2], hmv =>
      simp only [Camera.onTouchMove] at hmv
      by_cases hp : s.currentlyPinching
      · rw [if_pos hp] at hmv
        rcases hlp : s.lastPinchPositions with _ | ⟨p1, p2⟩
        · rw [hlp] at hmv; simp at hmv
        · rw [hlp] at hmv
          simp only [Option.some.injEq] at hmv
          subst hmv
          exact clampZoomLevel_zoom_mem cfg _ h
      · rw [if_neg hp] at hmv
        simp only [Option.some.injEq] at hmv
        subst hmv
        exact clampZoomLevel_zoom_mem cfg _ h
    | [], hmv =>
      simp only [Camera.onTouchMove, Option.some.injEq] at hmv
      subst hmv
      exact clampZoomLevel_zoom_mem cfg _ h
    | t1 :: t2 :: t3 :: rest, hmv =>
      simp only [Camera.onTouchMove, Option.some.injEq] at hmv
      subst hmv
      exact clampZoomLevel_zoom_mem cfg _ h

/-- Witness for C1: a far-out-of-range starting zoom (100) is brought back
into `[1/2, 4]` by a single `update`. -/
theorem update_zoomLevel_within_limits_witness :
    sampleConfig.minimumZoom ≤ sampleConfig.maximumZoom ∧
      ((sampleConfig.minimumZoom
            ≤ (Camera.update sampleConfig { sampleCamera with zoomLevel := 100 } 5).zoomLevel ∧
          (Camera.update sampleConfig { sampleCamera with zoomLevel := 100 } 5).zoomLevel
            ≤ sampleConfig.maximumZoom) ∧
        (Camera.onTouchMove sampleConfig { sampleCamera with zoomLevel := 100 } false []
            = some sampleCamera →
          sampleConfig.minimumZoom ≤ sampleCamera.zoomLevel ∧
            sampleCamera.zoomLevel ≤ sampleConfig.maximumZoom)) :=
  ⟨by norm_num [sampleConfig],
    update_zoomLevel_within_limits sampleConfig { sampleCamera with zoomLevel := 100 } 5
      [] false sampleCamera (by norm_num [sampleConfig])⟩

/-! ### C7 — one fixed step as a composition of the per-channel updates -/

/-- `internalUpdatePanning` is the inertial-pan channel followed by the
programmatic pan-blend channel. -/
theorem internalUpdatePanning_eq_channels (cfg : CameraConfig) (s : Camera) (now dt : ℚ) :
    Camera.internalUpdatePanning cfg s now dt
      = Camera.panBlendChannel (Camera.inertialPanChannel cfg s now dt) now dt := by
  by_cases h : s.currentlyMoving = false ∧ s.currentlyPinching = false
  · simp [Camera.internalUpdatePanning, Camera.inertialPanChannel, Camera.panBlendChannel, h]
  · simp [Camera.internalUpdatePanning, Camera.inertialPanChannel, Camera.panBlendChannel, h]

/-- Shake decay only touches `currentShake`, which no other channel reads:
it commutes with the inertial pan channel. -/
theorem shake_inertial_comm (cfg : CameraConfig) (s : Camera) (now dt : ℚ) :
    (Camera.inertialPanChannel cfg s now dt).internalUpdateShake now dt
      = Camera.inertialPanChannel cfg (s.internalUpdateShake now dt) now dt := by
  by_cases h : s.currentlyMoving = false ∧ s.currentlyPinching = false
  · simp [Camera.inertialPanChannel, Camera.internalUpdateShake, h]
  · simp [Camera.inertialPanChannel, Camera.internalUpdateShake, h]

/-- Shake decay commutes with the programmatic pan-blend channel. -/
theorem shake_panBlend_comm (s : Camera) (now dt : ℚ) :
    (Camera.panBlendChannel s now dt).internalUpdateShake now dt
      = Camera.panBlendChannel (s.internalUpdateShake now dt) now dt := by
  by_cases h : s.currentlyMoving = false ∧ s.currentlyPinching = false
  · simp [Camera.panBlendChannel, Camera.internalUpdateShake, h]
  · simp [Camera.panBlendChannel, Camera.internalUpdateShake, h]

/-- Shake decay commutes with the programmatic zoom-blend channel. -/
theorem shake_zooming_comm (s : Camera) (now dt : ℚ) :
    (s.internalUpdateZooming now dt).internalUpdateShake now dt
      = (s.internalUpdateShake now dt).internalUpdateZooming now dt := by
  by_cases hp : s.currentlyPinching
  · simp [Camera.internalUpdateZooming, Camera.internalUpdateShake, hp]
  · rcases hdz : s.desiredZoom with _ | d
    · simp [Camera.internalUpdateZooming, Camera.internalUpdateShake, hp, hdz]
    · simp only [Camera.internalUpdateZooming, Camera.internalUpdateShake, hp, hdz,
        if_false, Bool.false_eq_true]
      split <;> rfl

/-- Shake decay commutes with the programmatic centering channel. -/
theorem shake_centering_comm (s : Camera) (now dt : ℚ) :
    (s.internalUpdateCentering now dt).internalUpdateShake now dt
      = (s.internalUpdateShake now dt).internalUpdateCentering now dt := by
  by_cases hm : s.currentlyMoving
  · simp [Camera.internalUpdateCentering, Camera.internalUpdateShake, hm]
  · rcases hdc : s.desiredCenter with _ | dc
    · simp [Camera.internalUpdateCentering, Camera.internalUpdateShake, hm, hdc]
    · simp only [Camera.internalUpdateCentering, Camera.internalUpdateShake, hm, hdc,
        if_false, Bool.false_eq_true]
      split <;> rfl

/-- C7: one fixed integration step equals the composition of the
per-channel update functions in the spec's order — shake decay first, then
inertial pan, then programmatic pan blend, then programmatic zoom blend,
then programmatic centering, then keyboard force.  (The source calls shake
decay fourth, between centering and keyboard force, but shake decay only
reads and writes `currentShake`, which none of the other channels touch,
so the two orders compute the same state.) -/
theorem stepChannels_eq_spec_order (cfg : CameraConfig) (s : Camera) (now dt : ℚ) :
    Camera.stepChannels cfg s now dt =
      Camera.internalUpdateKeyboardForce cfg
        (Camera.internalUpdateCentering
          (Camera.internalUpdateZooming
            (Camera.panBlendChannel
              (Camera.inertialPanChannel cfg
                (Camera.internalUpdateShake s now dt) now dt) now dt) now dt) now dt)
        now dt := by
  unfold Camera.stepChannels
  rw [internalUpdatePanning_eq_channels, shake_centering_comm, shake_zooming_comm,
    shake_panBlend_comm, shake_inertial_comm]

/-! ### C4 — zero-distance pinch cannot corrupt the zoom level -/

/-- C4: from any pinching state (with its last pinch pair recorded, as
every reachable pinching state has) and positive zoom, a pinch-move whose
two touch points are identical produces `thisDistance = 0`, so the ratio
`thisDistance / max(0.001, lastDistance)` is an exact `0` (the `Math_max`
keeps the denominator positive), the zoom momentarily becomes `0` and the
final `clampZoomLevel` pass lifts it to the minimum zoom: the handler
returns normally with `zoomLevel` inside the bounded positive range
`[minZoom, maxZoom]` — never a non-finite value. -/
theorem pinch_zero_distance_zoom_stays_bounded (cfg : CameraConfig) (s : Camera)
    (p l1 l2 : Vec) (mc : Bool)
    (hp : s.currentlyPinching = true) (hl : s.lastPinchPositions = some (l1, l2))
    (_hzoom : 0 < s.zoomLevel) (hmin : 0 < cfg.minimumZoom)
    (hmm : cfg.minimumZoom ≤ cfg.maximumZoom) :
    ∃ z : ℚ, Option.map Camera.zoomLevel (Camera.onTouchMove cfg s mc [p, p]) = some z ∧
      cfg.minimumZoom ≤ z ∧ z ≤ cfg.maximumZoom := by
  have hdist : Vec.distance p p = 0 := by
    simp [Vec.distance, Vec.sub, Vec.lengthSquare, sqrtQ]
  have hclamp : clampQ 0 cfg.minimumZoom cfg.maximumZoom = cfg.minimumZoom := by
    unfold clampQ minQ maxQ
    rw [if_pos (hmin.le.trans hmm), if_neg (not_le.mpr hmin)]
  refine ⟨cfg.minimumZoom, ?_, le_refl _, hmm⟩
  simp only [Camera.onTouchMove, hp, if_true, hl, Option.map_some']
  simp [Camera.clampZoomLevel, hdist, hclamp]

/-- A concrete pinching state (two fingers 200px apart), for the C4
witness. -/
def pinchCamera : Camera :=
  { sampleCamera with
    currentlyPinching := true
    lastPinchPositions := some (⟨100, 300⟩, ⟨300, 300⟩) }

/-- Witness for C4: collapsing both fingers onto the midpoint `(200,300)`. -/
theorem pinch_zero_distance_zoom_stays_bounded_witness :
    pinchCamera.currentlyPinching = true ∧
      pinchCamera.lastPinchPositions = some (⟨100, 300⟩, ⟨300, 300⟩) ∧
      (0 : ℚ) < pinchCamera.zoomLevel ∧
      (0 : ℚ) < sampleConfig.minimumZoom ∧
      sampleConfig.minimumZoom ≤ sampleConfig.maximumZoom ∧
      ∃ z : ℚ, Option.map Camera.zoomLevel
          (Camera.onTouchMove sampleConfig pinchCamera false [⟨200, 300⟩, ⟨200, 300⟩])
            = some z ∧
        sampleConfig.minimumZoom ≤ z ∧ z ≤ sampleConfig.maximumZoom :=
  ⟨rfl, rfl, by norm_num [pinchCamera, sampleCamera],
    by norm_num [sampleConfig], by norm_num [sampleConfig],
    pinch_zero_distance_zoom_stays_bounded sampleConfig pinchCamera
      ⟨200, 300⟩ ⟨100, 300⟩ ⟨300, 300⟩ false rfl rfl
      (by norm_num [pinchCamera, sampleCamera])
      (by norm_num [sampleConfig]) (by norm_num [sampleConfig])⟩

/-! ### C8 — requested zoom animations converge to the clamped target -/

/-- Invariant carried through the integration steps of a zoom animation
requested with target `Z`: the desired zoom is still the raw target, or
its clamped value (after the first end-of-update clamp pass), or the
animation has terminated with the zoom level within `1e-4` of the (raw or
clamped) target. -/
def zoomInv (cfg : CameraConfig) (Z : ℚ) (s : Camera) : Prop :=
  s.desiredZoom = some Z ∨
    s.desiredZoom = some (clampQ Z cfg.minimumZoom cfg.maximumZoom) ∨
    (s.desiredZoom = none ∧
      (|s.zoomLevel - Z| ≤ 0.0001 ∨
        |s.zoomLevel - clampQ Z cfg.minimumZoom cfg.maximumZoom| ≤ 0.0001))

/-- The stronger shape that holds at observation points (right after
`update` returns, when the zoom level has been clamped). -/
def zoomInvPost (cfg : CameraConfig) (Z : ℚ) (s : Camera) : Prop :=
  s.desiredZoom = some Z ∨
    s.desiredZoom = some (clampQ Z cfg.minimumZoom cfg.maximumZoom) ∨
    (s.desiredZoom = none ∧
      |s.zoomLevel - clampQ Z cfg.minimumZoom cfg.maximumZoom| ≤ 0.0001)

theorem zoomInv_of_post (cfg : CameraConfig) (Z : ℚ) (s : Camera)
    (h : zoomInvPost cfg Z s) : zoomInv cfg Z s := by
  rcases h with h | h | ⟨h1, h2⟩
  · exact Or.inl h
  · exact Or.inr (Or.inl h)
  · exact Or.inr (Or.inr ⟨h1, Or.inr h2⟩)

/-- `zoomInv` only looks at `zoomLevel` and `desiredZoom`. -/
theorem zoomInv_of_eq (cfg : CameraConfig) (Z : ℚ) (t s : Camera)
    (hz : t.zoomLevel = s.zoomLevel) (hd : t.desiredZoom = s.desiredZoom)
    (h : zoomInv cfg Z s) : zoomInv cfg Z t := by
  unfold zoomInv at h ⊢
  rw [hz, hd]
  exact h

theorem zoomInv_internalUpdateZooming (cfg : CameraConfig) (Z : ℚ) (s : Camera) (now dt : ℚ)
    (h : zoomInv cfg Z s) : zoomInv cfg Z (s.internalUpdateZooming now dt) := by
  rw [Camera.internalUpdateZooming]
  split
  · exact h
  · split
    · exact h
    · rename_i d heq
      have hd : d = Z ∨ d = clampQ Z cfg.minimumZoom cfg.maximumZoom := by
        rcases h with h1 | h1 | ⟨h1, _⟩
        · exact Or.inl (Option.some.inj (heq ▸ h1))
        · exact Or.inr (Option.some.inj (heq ▸ h1))
        · exact absurd (heq ▸ h1) (by simp)
      dsimp only
      split
      · rcases hd with rfl | rfl
        · exact Or.inl heq
        · exact Or.inr (Or.inl heq)
      · rename_i hle
        refine Or.inr (Or.inr ⟨rfl, ?_⟩)
        have hb : |s.zoomLevel - d| ≤ 0.0001 := by
          rw [← absQ_eq_abs]
          exact le_of_not_lt hle
        rcases hd with rfl | rfl
        · exact Or.inl hb
        · exact Or.inr hb

theorem zoomInv_stepChannels (cfg : CameraConfig) (Z : ℚ) (s : Camera) (now dt : ℚ)
    (h : zoomInv cfg Z s) : zoomInv cfg Z (Camera.stepChannels cfg s now dt) := by
  unfold Camera.stepChannels
  have hA : zoomInv cfg Z (Camera.internalUpdatePanning cfg s now dt) :=
    zoomInv_of_eq cfg Z _ s (internalUpdatePanning_preserves cfg s now dt).2.1
      (internalUpdatePanning_preserves cfg s now dt).2.2 h
  have hB := zoomInv_internalUpdateZooming cfg Z _ now dt hA
  have hC : zoomInv cfg Z
      (((Camera.internalUpdatePanning cfg s now dt).internalUpdateZooming now
        dt).internalUpdateCentering now dt) :=
    zoomInv_of_eq cfg Z _ _ (internalUpdateCentering_preserves _ now dt).2.1
      (internalUpdateCentering_preserves _ now dt).2.2 hB
  have hD : zoomInv cfg Z
      ((((Camera.internalUpdatePanning cfg s now dt).internalUpdateZooming now
        dt).internalUpdateCentering now dt).internalUpdateShake now dt) :=
    zoomInv_of_eq cfg Z _ _ (internalUpdateShake_preserves _ now dt).2.1
      (internalUpdateShake_preserves _ now dt).2.2 hC
  exact zoomInv_of_eq cfg Z _ _ (internalUpdateKeyboardForce_preserves cfg _ now dt).2.1
    (internalUpdateKeyboardForce_preserves cfg _ now dt).2.2 hD

theorem zoomInv_updateLoop (cfg : CameraConfig) (Z : ℚ) : ∀ (n : ℕ) (now : ℚ) (s : Camera),
    zoomInv cfg Z s → zoomInv cfg Z (Camera.updateLoop cfg n now s) := by
  intro n
  induction n with
  | zero => intro now s h; exact h
  | succ n ih =>
    intro now s h
    rw [Camera.updateLoop]
    split
    · exact ih _ _ (zoomInv_stepChannels cfg Z _ _ _ (zoomInv_of_eq cfg Z _ s rfl rfl h))
    · exact h

theorem zoomInvPost_clampZoomLevel (cfg : CameraConfig) (Z : ℚ) (s : Camera)
    (hmin : 0 < cfg.minimumZoom) (hmm : cfg.minimumZoom ≤ cfg.maximumZoom)
    (h : zoomInv cfg Z s) : zoomInvPost cfg Z (Camera.clampZoomLevel cfg s) := by
  rcases h with h1 | h1 | ⟨h1, h2⟩
  · by_cases hz0 : Z = 0
    · exact Or.inl (by simp [Camera.clampZoomLevel, h1, hz0])
    · exact Or.inr (Or.inl (by simp [Camera.clampZoomLevel, h1, hz0]))
  · have hcz : clampQ Z cfg.minimumZoom cfg.maximumZoom ≠ 0 :=
      ne_of_gt (lt_of_lt_of_le hmin (le_clampQ _ _ _))
    refine Or.inr (Or.inl ?_)
    show (match s.desiredZoom with
      | none => none
      | some d => if d = 0 then some 0
          else some (clampQ d cfg.minimumZoom cfg.maximumZoom)) = _
    rw [h1]
    simp [hcz, clampQ_idem Z _ _ hmm]
  · refine Or.inr (Or.inr ⟨by simp [Camera.clampZoomLevel, h1], ?_⟩)
    show |clampQ s.zoomLevel cfg.minimumZoom cfg.maximumZoom - _| ≤ _
    rcases h2 with h2 | h2
    · calc |clampQ s.zoomLevel cfg.minimumZoom cfg.maximumZoom
            - clampQ Z cfg.minimumZoom cfg.maximumZoom|
          ≤ |s.zoomLevel - Z| := clampQ_lipschitz _ _ _ _
        _ ≤ 0.0001 := h2
    · calc |clampQ s.zoomLevel cfg.minimumZoom cfg.maximumZoom
            - clampQ Z cfg.minimumZoom cfg.maximumZoom|
          = |clampQ s.zoomLevel cfg.minimumZoom cfg.maximumZoom
              - clampQ (clampQ Z cfg.minimumZoom cfg.maximumZoom)
                cfg.minimumZoom cfg.maximumZoom| := by rw [clampQ_idem Z _ _ hmm]
        _ ≤ |s.zoomLevel - clampQ Z cfg.minimumZoom cfg.maximumZoom| :=
            clampQ_lipschitz _ _ _ _
        _ ≤ 0.0001 := h2

theorem zoomInvPost_update (cfg : CameraConfig) (Z : ℚ) (s : Camera) (dt : ℚ)
    (hmin : 0 < cfg.minimumZoom) (hmm : cfg.minimumZoom ≤ cfg.maximumZoom)
    (h : zoomInvPost cfg Z s) : zoomInvPost cfg Z (Camera.update cfg s dt) := by
  unfold Camera.update
  exact zoomInvPost_clampZoomLevel cfg Z _ hmin hmm
    (zoomInv_updateLoop cfg Z _ _ _
      (zoomInv_of_eq cfg Z _ s rfl rfl (zoomInv_of_post cfg Z s h)))

theorem zoomInvPost_foldl (cfg : CameraConfig) (Z : ℚ)
    (hmin : 0 < cfg.minimumZoom) (hmm : cfg.minimumZoom ≤ cfg.maximumZoom) :
    ∀ (dts : List ℚ) (s : Camera), zoomInvPost cfg Z s →
      zoomInvPost cfg Z (dts.foldl (Camera.update cfg) s) := by
  intro dts
  induction dts with
  | nil => intro s h; exact h
  | cons d rest ih =>
    intro s h
    exact ih _ (zoomInvPost_update cfg Z s d hmin hmm h)

/-- C8: with a well-formed positive zoom range, (a) after a zoom request
`requestZoom(Z)` followed by any sequence of `update` calls at whose end
`desiredZoom` has become null, `zoomLevel` is within `1e-4` of
`clamp(Z, minZoom, maxZoom)`; (b) while the animation is active and not
pinching, a step with gap above `1e-4` blends `zoomLevel` toward
`desiredZoom` with factor `0.9` when zooming out (`zoomLevel` above the
target) and `0.94` when zooming in, keeping the animation active; and
(c) once the gap is at most `1e-4`, the step sets `desiredZoom` to null
and leaves `zoomLevel` unchanged. -/
theorem requestZoom_convergence (cfg : CameraConfig) (s s1 : Camera) (Z dz now dt : ℚ)
    (dts : List ℚ)
    (hmin : 0 < cfg.minimumZoom) (hmm : cfg.minimumZoom ≤ cfg.maximumZoom) :
    ((dts.foldl (Camera.update cfg) (s.requestZoom Z)).desiredZoom = none →
      |(dts.foldl (Camera.update cfg) (s.requestZoom Z)).zoomLevel
          - clampQ Z cfg.minimumZoom cfg.maximumZoom| ≤ 0.0001) ∧
    (s1.currentlyPinching = false → s1.desiredZoom = some dz →
      ((0.0001 < |s1.zoomLevel - dz| →
          (s1.internalUpdateZooming now dt).zoomLevel
              = s1.zoomLevel * (if 0 < s1.zoomLevel - dz then 0.9 else 0.94)
                + dz * (1 - (if 0 < s1.zoomLevel - dz then 0.9 else 0.94)) ∧
            (s1.internalUpdateZooming now dt).desiredZoom = some dz) ∧
        (|s1.zoomLevel - dz| ≤ 0.0001 →
          (s1.internalUpdateZooming now dt).desiredZoom = none ∧
            (s1.internalUpdateZooming now dt).zoomLevel = s1.zoomLevel))) := by
  refine ⟨?_, ?_⟩
  · intro hnone
    have h0 : zoomInvPost cfg Z (s.requestZoom Z) := Or.inl rfl
    have hf := zoomInvPost_foldl cfg Z hmin hmm dts _ h0
    rcases hf with h | h | ⟨h1, h2⟩
    · rw [hnone] at h; exact absurd h (by simp)
    · rw [hnone] at h; exact absurd h (by simp)
    · exact h2
  · intro hpin hdz
    have hred : s1.internalUpdateZooming now dt =
        (if 0.0001 < absQ (s1.zoomLevel - dz) then
          { s1 with zoomLevel := s1.zoomLevel * (if 0 < s1.zoomLevel - dz then 0.9 else 0.94)
              + dz * (1 - (if 0 < s1.zoomLevel - dz then 0.9 else 0.94)) }
         else { s1 with desiredZoom := none }) := by
      rw [Camera.internalUpdateZooming, if_neg (by simp [hpin])]
      simp only [hdz]
    constructor
    · intro hgt
      have hgt2 : 0.0001 < absQ (s1.zoomLevel - dz) := by rw [absQ_eq_abs]; exact hgt
      rw [hred, if_pos hgt2]
      exact ⟨rfl, hdz⟩
    · intro hle
      have hle2 : ¬ (0.0001 < absQ (s1.zoomLevel - dz)) := by
        rw [absQ_eq_abs]; exact not_lt.mpr hle
      rw [hred, if_neg hle2]
      exact ⟨rfl, rfl⟩

/-- Witness for C8: the sample camera requesting its own zoom level `5/4`
(so one `update(5)` terminates the animation), and the single-step clauses
instantiated at `dz = 3`. -/
theorem requestZoom_convergence_witness :
    (0 : ℚ) < sampleConfig.minimumZoom ∧
      sampleConfig.minimumZoom ≤ sampleConfig.maximumZoom ∧
      ((([5] : List ℚ).foldl (Camera.update sampleConfig)
            (sampleCamera.requestZoom (5/4))).desiredZoom = none →
        |(([5] : List ℚ).foldl (Camera.update sampleConfig)
              (sampleCamera.requestZoom (5/4))).zoomLevel
            - clampQ (5/4) sampleConfig.minimumZoom sampleConfig.maximumZoom| ≤ 0.0001) ∧
      (sampleCamera.currentlyPinching = false → sampleCamera.desiredZoom = some 3 →
        ((0.0001 < |sampleCamera.zoomLevel - 3| →
            (sampleCamera.internalUpdateZooming 0 physicsStepSizeMs).zoomLevel
                = sampleCamera.zoomLevel
                    * (if 0 < sampleCamera.zoomLevel - 3 then 0.9 else 0.94)
                  + 3 * (1 - (if 0 < sampleCamera.zoomLevel - 3 then 0.9 else 0.94)) ∧
              (sampleCamera.internalUpdateZooming 0 physicsStepSizeMs).desiredZoom
                = some 3) ∧
          (|sampleCamera.zoomLevel - 3| ≤ 0.0001 →
            (sampleCamera.internalUpdateZooming 0 physicsStepSizeMs).desiredZoom = none ∧
              (sampleCamera.internalUpdateZooming 0 physicsStepSizeMs).zoomLevel
                = sampleCamera.zoomLevel))) := by
  refine ⟨by norm_num [sampleConfig], by norm_num [sampleConfig], ?_, ?_⟩ <;>
    have h := requestZoom_convergence sampleConfig sampleCamera sampleCamera (5/4) 3 0
      physicsStepSizeMs [5] (by norm_num [sampleConfig]) (by norm_num [sampleConfig])
  · exact h.1
  · exact h.2
